import Mathlib

/-!
Verification of `async_simple/coro/LazyLocalBase.h`.

The header implements a hand-rolled run-time type identification scheme for
coroutine-local storage:

* `detail::LazyLocalBaseTypeTag` — a zero-size marker struct; one static
  instance (`LazyLocalBaseImpl<Derived>::typeTag`) exists per leaf type, and
  type identity is pointer equality on its address.
* `LazyLocalBase` — the polymorphic base handle; it stores a single field
  `_typeinfo : LazyLocalBaseTypeTag*` which is either null (the handle was
  built from `nullptr`) or the address of some leaf type's `typeTag`.
* `LazyLocalBaseImpl<Derived>` — the CRTP derivation template; its
  constructor stamps the base with `&typeTag`, and `isMe(p)` compares
  `p->_typeinfo` with `&typeTag`.
* `SimpleLazyLocal<T>` — the generic value wrapper,
  `LazyLocalBaseImpl<SimpleLazyLocal<T>>` with an embedded field
  `T localValue`.
* `LazyLocalBase::dynamicCast<T>()` — three compile-time branches on the
  shape of `T`: the base type itself, a type satisfying the
  `isDerivedFromLazyLocal` concept, or a plain payload type (queried through
  `SimpleLazyLocal<T>`).

Embedding choices:

* Addresses of the per-type static `typeTag` objects are modelled by the
  inductive `TypeTag`: the C++ guarantee that distinct template
  instantiations own distinct static objects at distinct addresses becomes
  injectivity and disjointness of the constructors.  Custom leaf types are
  named by a `Nat` identifier, and value (payload) types likewise; the
  payload values themselves live in an arbitrary Lean type `V`.
* A fully constructed object reachable through a `LazyLocalBase*` is one of:
  an empty handle, an instance of a custom leaf type (its non-base members
  abstracted as a `Nat` state so two instances of one type can differ), or a
  `SimpleLazyLocal` wrapper holding a payload value.
* A `T*` returned by `dynamicCast` is either a pointer to the whole object
  (`this`, possibly reinterpreted to a derived type) or a pointer to the
  embedded `localValue` field of a wrapper.
-/

namespace AsyncSimpleCoro

/-- Address of a per-leaf-type singleton `detail::LazyLocalBaseTypeTag`
(`LazyLocalBaseImpl<Derived>::typeTag`).  `custom i` is the tag of the
custom leaf type named `i`; `simple w` is the tag of `SimpleLazyLocal<W>`
for the value type named `w`.  Distinct constructors model distinct static
objects at distinct addresses. -/
inductive TypeTag where
  | custom (id : Nat)
  | simple (vid : Nat)
deriving DecidableEq, Repr

/-- The base handle `LazyLocalBase`: its one data member
`detail::LazyLocalBaseTypeTag* _typeinfo`, null (`none`) for a handle built
from `nullptr`. -/
structure LazyLocalBase where
  _typeinfo : Option TypeTag
deriving DecidableEq, Repr

/-- `LazyLocalBase::empty()`: `return _typeinfo == nullptr;` -/
def LazyLocalBase.empty (b : LazyLocalBase) : Bool :=
  decide (b._typeinfo = none)

/-- `LazyLocalBaseImpl<Derived>::isMe(p)`: `return p->_typeinfo == &typeTag;`
where `tag` is the `typeTag` address of the derived type in question. -/
def isMe (tag : TypeTag) (p : LazyLocalBase) : Bool :=
  decide (p._typeinfo = some tag)

/-- A fully constructed object reachable through a `LazyLocalBase*`, over a
payload-value domain `V`:
* `emptyHandle` — `LazyLocalBase(nullptr)`;
* `customLeaf id s` — an instance of the custom leaf type named `id`
  (derived from `LazyLocalBaseImpl` of itself); `s` abstracts the
  instance's own members, so two instances of one type can differ;
* `simpleLocal vid v` — a `SimpleLazyLocal` for the value type named `vid`,
  with `localValue = v`. -/
inductive Object (V : Type) where
  | emptyHandle
  | customLeaf (id : Nat) (s : Nat)
  | simpleLocal (vid : Nat) (v : V)
deriving DecidableEq, Repr

/-- The base subobject of an object: each constructor runs the
corresponding C++ constructor, which stamps `_typeinfo`.
`LazyLocalBase(nullptr)` stores null; `LazyLocalBaseImpl<Derived>()` stores
`&LazyLocalBaseImpl<Derived>::typeTag`. -/
def Object.toBase {V : Type} : Object V → LazyLocalBase
  | .emptyHandle => ⟨none⟩
  | .customLeaf id _ => ⟨some (.custom id)⟩
  | .simpleLocal vid _ => ⟨some (.simple vid)⟩

/-- The `localValue` field of a `SimpleLazyLocal` wrapper, when the object
is one. -/
def Object.localValue? {V : Type} : Object V → Option V
  | .simpleLocal _ v => some v
  | _ => none

/-- A target type `T` handed to `LazyLocalBase::dynamicCast<T>()`, by the
shape the `if constexpr` chain branches on:
* `base` — `T` is `LazyLocalBase` itself;
* `leaf id` — `T` is the custom leaf type named `id` (satisfies
  `isDerivedFromLazyLocal`);
* `simple vid` — `T` is `SimpleLazyLocal<W>` for the value type named `vid`
  (also satisfies `isDerivedFromLazyLocal`, since `SimpleLazyLocal<W>`
  derives from `LazyLocalBaseImpl` of itself);
* `payload vid` — `T` is the plain value type named `vid` (no relation to
  `LazyLocalBase`; queried through `SimpleLazyLocal<T>`). -/
inductive Ty where
  | base
  | leaf (id : Nat)
  | simple (vid : Nat)
  | payload (vid : Nat)
deriving DecidableEq, Repr

/-- The concept `isDerivedFromLazyLocal<T>`:
`std::is_base_of_v<LazyLocalBaseImpl<T>, T>`.  It holds exactly for custom
leaf types and for `SimpleLazyLocal` wrappers. -/
def Ty.isDerivedFromLazyLocal : Ty → Bool
  | .leaf _ => true
  | .simple _ => true
  | _ => false

/-- The `typeTag` address `dynamicCast<T>()` compares against: for a type
satisfying `isDerivedFromLazyLocal` it is `T`'s own tag; for a plain
payload type it is `SimpleLazyLocal<T>`'s tag; the base type has none. -/
def Ty.typeTag : Ty → Option TypeTag
  | .base => none
  | .leaf id => some (.custom id)
  | .simple vid => some (.simple vid)
  | .payload vid => some (.simple vid)

/-- A `T*` returned by `dynamicCast`: either the address of the whole
object (`this`, possibly `static_cast` to a derived type) or the address of
the `localValue` field embedded in a `SimpleLazyLocal` wrapper. -/
inductive Ptr (V : Type) where
  | obj (o : Object V)
  | field (vid : Nat) (v : V)
deriving DecidableEq, Repr

/-- The value stored at the pointer's target, when the target is a payload
field. -/
def Ptr.pointedValue {V : Type} : Ptr V → Option V
  | .field _ v => some v
  | .obj _ => none

/-- `LazyLocalBase::dynamicCast<T>()`, translated branch by branch:
```
if constexpr (std::is_same_v<LazyLocalBase, T>) { return this; }
else if constexpr (isDerivedFromLazyLocal<T>) {
    if (T::isMe(this)) { return static_cast<T*>(this); }
    else { return nullptr; }
} else {
    if (SimpleLazyLocal<T>::isMe(this)) {
        return &static_cast<SimpleLazyLocal<T>*>(this)->localValue;
    } else { return nullptr; }
}
```
In the last branch the inner `match` extracts `localValue` after the
successful tag check; its fallback arm is unreachable, because only the
`SimpleLazyLocal` constructor ever stores that tag
(see `dynamicCast_payload_tag_implies_wrapper`). -/
def dynamicCast {V : Type} (o : Object V) : Ty → Option (Ptr V)
  | .base => some (.obj o)
  | .leaf id =>
      if isMe (.custom id) o.toBase then some (.obj o) else none
  | .simple vid =>
      if isMe (.simple vid) o.toBase then some (.obj o) else none
  | .payload vid =>
      if isMe (.simple vid) o.toBase then
        match o with
        | .simpleLocal _ v => some (.field vid v)
        | _ => none
      else none

/-- State-passing form of `dynamicCast`: the C++ member function performs
no write to `_typeinfo` (or to anything else), so the translation returns
the object unchanged alongside the result. -/
def dynamicCastRun {V : Type} (o : Object V) (T : Ty) :
    Option (Ptr V) × Object V :=
  (dynamicCast o T, o)

/-- State-passing form of `LazyLocalBase::empty()`: the body only reads
`_typeinfo`, so the handle comes back unchanged. -/
def emptyRun (b : LazyLocalBase) : Bool × LazyLocalBase :=
  (b.empty, b)

/-- If the payload branch's tag check succeeds, the object really is a
`SimpleLazyLocal` wrapper for that value type: only its constructor stores
the tag `TypeTag.simple vid`. -/
theorem dynamicCast_payload_tag_implies_wrapper {V : Type} (o : Object V)
    (vid : Nat) (h : isMe (.simple vid) o.toBase = true) :
    ∃ v : V, o = .simpleLocal vid v := by
  cases o with
  | emptyHandle => simp [isMe, Object.toBase] at h
  | customLeaf id s => simp [isMe, Object.toBase] at h
  | simpleLocal w v =>
      simp [isMe, Object.toBase] at h
      exact ⟨v, by rw [h]⟩

/-- C1: round-trip through the generic value wrapper.  For every value type
`V` (token id `vid`) and value `v`, constructing `SimpleLazyLocal<V>(v)` and
then calling `dynamicCast<V>()` on it as a `LazyLocalBase` returns a
non-null pointer whose pointed-to value equals `v`; and `dynamicCast<W>()`
for any unrelated target `W` (not the base type, `W`'s comparison token
distinct from `SimpleLazyLocal<V>`'s) returns null. -/
theorem wrap_roundtrip {V : Type} (vid : Nat) (v : V) (W : Ty)
    (hW : W ≠ Ty.base) (hTok : W.typeTag ≠ (Ty.payload vid).typeTag) :
    (dynamicCast (Object.simpleLocal vid v) (Ty.payload vid)
        = some (Ptr.field vid v)
      ∧ (Ptr.field vid v).pointedValue = some v)
    ∧ dynamicCast (Object.simpleLocal vid v) W = none := by
  refine ⟨⟨by simp [dynamicCast, isMe, Object.toBase], rfl⟩, ?_⟩
  cases W with
  | base => exact absurd rfl hW
  | leaf id => simp [dynamicCast, isMe, Object.toBase]
  | simple w =>
      simp only [Ty.typeTag, ne_eq, Option.some.injEq] at hTok
      simp [dynamicCast, isMe, Object.toBase]
      intro h
      exact hTok (by rw [h])
  | payload w =>
      simp only [Ty.typeTag, ne_eq, Option.some.injEq] at hTok
      simp [dynamicCast, isMe, Object.toBase]
      intro h
      exact absurd (by rw [h] : TypeTag.simple w = TypeTag.simple vid) hTok

/-- C1 witness: wrap the integer 42 (value-type id 0); `dynamicCast` to the
payload type succeeds with pointed-to value 42, and `dynamicCast` to the
distinct value type id 1 yields null. -/
theorem wrap_roundtrip_witness :
    (dynamicCast (Object.simpleLocal 0 (42 : Nat)) (Ty.payload 0)
        = some (Ptr.field 0 42)
      ∧ (Ptr.field 0 (42 : Nat)).pointedValue = some 42)
    ∧ dynamicCast (Object.simpleLocal 0 (42 : Nat)) (Ty.payload 1) = none :=
  wrap_roundtrip 0 42 (Ty.payload 1) (by decide) (by decide)

/-- C2: for two distinct leaf types built on the typed-derivation
mechanism, an instance of the first `dynamicCast`s to itself (non-null,
pointing at the instance) and to the other leaf type as null; and no two
distinct derived types share a `typeTag` address. -/
theorem leaf_cast_distinct {V : Type} (a b s : Nat) (hab : a ≠ b)
    (A B : Ty) (hA : A.isDerivedFromLazyLocal = true)
    (hB : B.isDerivedFromLazyLocal = true) (hAB : A ≠ B) :
    dynamicCast (Object.customLeaf a s : Object V) (Ty.leaf a)
        = some (Ptr.obj (Object.customLeaf a s))
    ∧ dynamicCast (Object.customLeaf a s : Object V) (Ty.leaf b) = none
    ∧ A.typeTag ≠ B.typeTag := by
  refine ⟨by simp [dynamicCast, isMe, Object.toBase], ?_, ?_⟩
  · simp [dynamicCast, isMe, Object.toBase]
    intro h
    exact absurd (by rw [h] : TypeTag.custom a = TypeTag.custom b)
      (by simpa using hab)
  · cases A with
    | base => simp [Ty.isDerivedFromLazyLocal] at hA
    | payload _ => simp [Ty.isDerivedFromLazyLocal] at hA
    | leaf i =>
        cases B with
        | base => simp [Ty.isDerivedFromLazyLocal] at hB
        | payload _ => simp [Ty.isDerivedFromLazyLocal] at hB
        | leaf j =>
            simp only [Ty.typeTag, ne_eq, Option.some.injEq,
              TypeTag.custom.injEq]
            intro h
            exact hAB (by rw [h])
        | simple j => simp [Ty.typeTag]
    | simple i =>
        cases B with
        | base => simp [Ty.isDerivedFromLazyLocal] at hB
        | payload _ => simp [Ty.isDerivedFromLazyLocal] at hB
        | leaf j => simp [Ty.typeTag]
        | simple j =>
            simp only [Ty.typeTag, ne_eq, Option.some.injEq,
              TypeTag.simple.injEq]
            intro h
            exact hAB (by rw [h])

/-- C2 witness: instantiated at leaf-type ids 0 and 1 over payload domain
`Nat`, with derived targets `leaf 0` and `leaf 1`. -/
theorem leaf_cast_distinct_witness :
    dynamicCast (Object.customLeaf 0 0 : Object Nat) (Ty.leaf 0)
        = some (Ptr.obj (Object.customLeaf 0 0))
    ∧ dynamicCast (Object.customLeaf 0 0 : Object Nat) (Ty.leaf 1) = none
    ∧ (Ty.leaf 0).typeTag ≠ (Ty.leaf 1).typeTag :=
  leaf_cast_distinct 0 1 0 (by decide) (Ty.leaf 0) (Ty.leaf 1)
    (by decide) (by decide) (by decide)

/-- C3: for every object — empty handle, custom typed-derivation instance,
or generic value wrapper — `dynamicCast<LazyLocalBase>()` succeeds and
returns the handle's own address (`this`). -/
theorem cast_base_identity {V : Type} (o : Object V) :
    dynamicCast o Ty.base = some (Ptr.obj o) := rfl

/-- C4: a handle constructed empty (the `nullptr` constructor) reports
`empty() = true`, and `dynamicCast<T>()` on it returns null for every
target other than the base type itself — leaf types, wrapper types and
plain payload types alike. -/
theorem empty_handle_cast_none {V : Type} (T : Ty) (hT : T ≠ Ty.base) :
    (Object.emptyHandle : Object V).toBase.empty = true
    ∧ dynamicCast (Object.emptyHandle : Object V) T = none := by
  refine ⟨rfl, ?_⟩
  cases T with
  | base => exact absurd rfl hT
  | leaf id => simp [dynamicCast, isMe, Object.toBase]
  | simple vid => simp [dynamicCast, isMe, Object.toBase]
  | payload vid => simp [dynamicCast, isMe, Object.toBase]

/-- C4 witness: the empty handle over `Nat`, queried at the custom leaf
type id 0. -/
theorem empty_handle_cast_none_witness :
    (Object.emptyHandle : Object Nat).toBase.empty = true
    ∧ dynamicCast (Object.emptyHandle : Object Nat) (Ty.leaf 0) = none :=
  empty_handle_cast_none (Ty.leaf 0) (by decide)

/-- C5: type mismatch is the single failure mode and is signalled only by a
null return.  For every object and every non-base target `T`,
`dynamicCast<T>()` returns null if and only if the handle's stored
`_typeinfo` differs from the `typeTag` address `T` is compared against
(`T`'s own for a derived type, `SimpleLazyLocal<T>`'s for a payload type);
the operation is a total function, so it is defined and non-faulting in all
cases. -/
theorem cast_none_iff_token_mismatch {V : Type} (o : Object V) (T : Ty)
    (hT : T ≠ Ty.base) :
    dynamicCast o T = none ↔ o.toBase._typeinfo ≠ T.typeTag := by
  cases T with
  | base => exact absurd rfl hT
  | leaf id =>
      cases o <;> simp [dynamicCast, isMe, Object.toBase, Ty.typeTag]
  | simple vid =>
      cases o <;> simp [dynamicCast, isMe, Object.toBase, Ty.typeTag]
  | payload vid =>
      cases o <;> simp [dynamicCast, isMe, Object.toBase, Ty.typeTag]

/-- C5 witness: a wrapper for value-type id 0 holding 7, queried at payload
type id 1: the cast is null and indeed the tokens differ. -/
theorem cast_none_iff_token_mismatch_witness :
    (dynamicCast (Object.simpleLocal 0 (7 : Nat)) (Ty.payload 1) = none
      ↔ (Object.simpleLocal 0 (7 : Nat)).toBase._typeinfo
          ≠ (Ty.payload 1).typeTag) :=
  cast_none_iff_token_mismatch (Object.simpleLocal 0 (7 : Nat))
    (Ty.payload 1) (by decide)

/-- C6: every handle's `_typeinfo` is either null or exactly the `typeTag`
address of some derived leaf type, and each construction path stamps the
field through the base-class constructor: the custom leaf type named `id`
stores `(Ty.leaf id).typeTag`, and `SimpleLazyLocal` for value type `vid`
stores `(Ty.simple vid).typeTag`.  No operation in the header writes the
field after construction (see `cast_and_empty_pure` for the two reading
operations). -/
theorem typeinfo_wellformed {V : Type} (o : Object V) :
    (o.toBase._typeinfo = none
      ∨ ∃ T : Ty, T.isDerivedFromLazyLocal = true
          ∧ o.toBase._typeinfo = T.typeTag)
    ∧ (∀ id s : Nat,
        (Object.customLeaf id s : Object V).toBase._typeinfo
          = (Ty.leaf id).typeTag)
    ∧ (∀ vid : Nat, ∀ v : V,
        (Object.simpleLocal vid v).toBase._typeinfo
          = (Ty.simple vid).typeTag) := by
  refine ⟨?_, fun id s => rfl, fun vid v => rfl⟩
  cases o with
  | emptyHandle => exact Or.inl rfl
  | customLeaf id s => exact Or.inr ⟨Ty.leaf id, rfl, rfl⟩
  | simpleLocal vid v => exact Or.inr ⟨Ty.simple vid, rfl, rfl⟩

/-- C7: token identity is per-type, not per-instance.  Two independently
constructed instances of the custom leaf type named `id` (with arbitrary,
possibly different member states `s1`, `s2`) both satisfy that type's
`isMe`, their stored `_typeinfo` values are the same singleton address, and
that address is the fixed `typeTag` of the leaf type. -/
theorem token_per_type {V : Type} (id s1 s2 : Nat) :
    isMe (TypeTag.custom id) (Object.customLeaf id s1 : Object V).toBase
        = true
    ∧ isMe (TypeTag.custom id) (Object.customLeaf id s2 : Object V).toBase
        = true
    ∧ (Object.customLeaf id s1 : Object V).toBase._typeinfo
        = (Object.customLeaf id s2 : Object V).toBase._typeinfo
    ∧ (Ty.leaf id).typeTag = some (TypeTag.custom id) := by
  refine ⟨?_, ?_, rfl, rfl⟩ <;> simp [isMe, Object.toBase]

/-- C8: `dynamicCast` and `empty` have no side effects.  In state-passing
form both operations return the handle (object) unchanged — the C++ bodies
only read `_typeinfo` — and a repeated call on the post-state returns an
identical result. -/
theorem cast_and_empty_pure {V : Type} (o : Object V) (T : Ty) :
    (dynamicCastRun o T).2 = o
    ∧ (emptyRun o.toBase).2 = o.toBase
    ∧ (dynamicCastRun ((dynamicCastRun o T).2) T).1 = (dynamicCastRun o T).1
    ∧ (emptyRun ((emptyRun o.toBase).2)).1 = (emptyRun o.toBase).1 :=
  ⟨rfl, rfl, rfl, rfl⟩

/-- C10: a wrapped value is reachable through two distinct target types on
the same handle.  `dynamicCast` at the plain payload type returns a pointer
to the embedded `localValue` field; `SimpleLazyLocal<V>` itself satisfies
`isDerivedFromLazyLocal`, so `dynamicCast` at the wrapper type takes the
typed-derivation branch and returns a non-null pointer to the wrapper
object itself; and the payload pointer's value equals the wrapper's
`localValue` field. -/
theorem wrap_two_views {V : Type} (vid : Nat) (v : V) :
    dynamicCast (Object.simpleLocal vid v) (Ty.payload vid)
        = some (Ptr.field vid v)
    ∧ (Ty.simple vid).isDerivedFromLazyLocal = true
    ∧ dynamicCast (Object.simpleLocal vid v) (Ty.simple vid)
        = some (Ptr.obj (Object.simpleLocal vid v))
    ∧ (Ptr.field vid v).pointedValue
        = (Object.simpleLocal vid v).localValue? := by
  refine ⟨?_, rfl, ?_, rfl⟩ <;> simp [dynamicCast, isMe, Object.toBase]

end AsyncSimpleCoro
